import Mathlib

/-!
Verification development for the OneBot channel adapter
(`pkg/channels` of picoclaw).  The Go source is shallowly embedded:
wire values (`json.RawMessage`) become an inductive `JSONValue`,
machine `int64` becomes `Int` with explicit two-power bounds,
fallible functions return `Option`/pairs with a success flag, and the
mutable channel state becomes explicit state passing.
-/

/-- A decoded JSON wire value.  `absent` stands for a `json.RawMessage`
of length zero (field not present on the wire).  JSON numbers are
modelled by their integer value: every number literal in the claims'
scope is integer-valued, and its wire literal is its decimal rendering. -/
inductive JSONValue where
  | absent : JSONValue
  | null : JSONValue
  | num : Int → JSONValue
  | str : String → JSONValue
  | bool : Bool → JSONValue
  | arr : List JSONValue → JSONValue
  | obj : List (String × JSONValue) → JSONValue

/-- `len(raw) == 0` on a `json.RawMessage`. -/
def JSONValue.isAbsent : JSONValue → Bool
  | .absent => true
  | _ => false

/-- Signed 64-bit minimum, `-2^63`. -/
def int64Min : Int := -(2 ^ 63)

/-- Signed 64-bit maximum, `2^63 - 1`. -/
def int64Max : Int := 2 ^ 63 - 1

/-- Reduction of an integer into the int64 range by two's-complement
wraparound, as Go arithmetic on `int64` behaves on overflow
(`MaxInt64 + 1 = MinInt64`). -/
def int64Wrap (n : Int) : Int :=
  (n + 2 ^ 63) % 2 ^ 64 - 2 ^ 63

/-- Value of a non-empty run of ASCII decimal digits (accumulator form),
`none` as soon as a non-digit appears.  Mirrors the digit loop of Go's
`strconv.ParseUint` for base 10. -/
def digitsValAux : List Char → Nat → Option Nat
  | [], acc => some acc
  | c :: rest, acc =>
    if '0' ≤ c ∧ c ≤ '9' then
      digitsValAux rest (acc * 10 + (c.toNat - '0'.toNat))
    else
      none

/-- Value of a digit string; `none` when empty or containing a non-digit. -/
def digitsVal : List Char → Option Nat
  | [] => none
  | c :: rest => digitsValAux (c :: rest) 0

/-- Go `strconv.ParseInt(s, 10, 64)`.  Returns the parsed value and a
success flag.  On a syntax error Go returns `(0, ErrSyntax)`; on a range
error it returns the clamped extreme (`MaxInt64` / `MinInt64`) together
with `ErrRange` — both are modelled, because callers of the source keep
the value even when they discard the error. -/
def goParseInt64 (s : String) : Int × Bool :=
  match s.data with
  | [] => (0, false)
  | c :: rest =>
    let (neg, ds) :=
      if c = '-' then (true, rest)
      else if c = '+' then (false, rest)
      else (false, c :: rest)
    match digitsVal ds with
    | none => (0, false)
    | some m =>
      if neg then
        if (m : Int) ≤ 2 ^ 63 then (-(m : Int), true) else (int64Min, false)
      else
        if (m : Int) ≤ 2 ^ 63 - 1 then ((m : Int), true) else (int64Max, false)

/-- Go `json.Unmarshal(raw, &n)` for `n : int64`: succeeds exactly on a
JSON `null` (no-op, leaving zero) or an integer number literal that fits
in `int64`. -/
def jsonUnmarshalInt64 : JSONValue → Option Int
  | .null => some 0
  | .num n => if int64Min ≤ n ∧ n ≤ int64Max then some n else none
  | _ => none

/-- Go `json.Unmarshal(raw, &s)` for `s : string`: succeeds on a JSON
string, and on `null` as a no-op leaving the empty string. -/
def jsonUnmarshalString : JSONValue → Option String
  | .null => some ("")
  | .str s => some s
  | _ => none

/-- `parseJSONInt64` (part_002:357-372): absent ⇒ `(0, ok)`; else try the
direct numeric decode; on failure try the string decode followed by
`strconv.ParseInt` on the decoded string; else fail. -/
def parseJSONInt64 (raw : JSONValue) : Int × Bool :=
  if raw.isAbsent then (0, true)
  else
    match jsonUnmarshalInt64 raw with
    | some n => (n, true)
    | none =>
      match jsonUnmarshalString raw with
      | some s => goParseInt64 s
      | none => (0, false)

mutual

/-- Canonical serialization of a `JSONValue`, standing for the raw bytes
`string(raw)` of the wire value (the model assumes canonically formatted
wire bytes: no extra whitespace, strings without escapes). -/
def jsonLit : JSONValue → String
  | .absent => ""
  | .null => "null"
  | .num n => toString n
  | .str s => "\"" ++ s ++ "\""
  | .bool b => if b then "true" else "false"
  | .arr l => "[" ++ String.intercalate (",") (jsonLitList l) ++ "]"
  | .obj f => "\x7b" ++ String.intercalate (",") (jsonLitFields f) ++ "\x7d"

/-- Serializations of the elements of a JSON array. -/
def jsonLitList : List JSONValue → List String
  | [] => []
  | v :: rest => jsonLit v :: jsonLitList rest

/-- Serializations of the fields of a JSON object. -/
def jsonLitFields : List (String × JSONValue) → List String
  | [] => []
  | (k, v) :: rest => ("\"" ++ k ++ "\":" ++ jsonLit v) :: jsonLitFields rest

end

/-- `parseJSONString` (part_002:374-384): absent ⇒ empty; a JSON string
(or `null`, as a no-op) decodes; anything else falls back to the raw
bytes. -/
def parseJSONString (raw : JSONValue) : String :=
  if raw.isAbsent then ""
  else
    match jsonUnmarshalString raw with
    | some s => s
    | none => jsonLit raw

/-- Dedup state of `OneBotChannel` (part_002:25-27): the presence map
`dedup`, the ring buffer `dedupRing` and the ring cursor `dedupIdx`. -/
structure OneBotDedup where
  dedup : Finset String
  dedupRing : List String
  dedupIdx : Nat
deriving DecidableEq

/-- Ring capacity `dedupSize` of `NewOneBotChannel` (part_002:97). -/
def dedupSize : Nat := 1024

/-- Dedup state made by `NewOneBotChannel` (part_002:94-105): empty map,
ring of `dedupSize` empty strings, cursor 0. -/
def initOneBotDedup : OneBotDedup :=
  { dedup := ∅, dedupRing := List.replicate dedupSize "", dedupIdx := 0 }

/-- `isDuplicate` (part_002:641-661), returning the reported flag and
the updated state.  Ids `""` and `"0"` are never deduplicated; a known
id reports `true` without a state change; otherwise the slot at the
cursor is evicted (its id deleted from the map when non-empty), the new
id is written to the slot and the map, and the cursor advances modulo
the ring length. -/
def isDuplicate (c : OneBotDedup) (messageID : String) : Bool × OneBotDedup :=
  if messageID = "" ∨ messageID = "0" then (false, c)
  else if messageID ∈ c.dedup then (true, c)
  else
    let old := c.dedupRing.getD c.dedupIdx ""
    let dedup' := if old ≠ "" then c.dedup.erase old else c.dedup
    let ring' := c.dedupRing.set c.dedupIdx messageID
    (false,
      { dedup := insert messageID dedup'
        dedupRing := ring'
        dedupIdx := (c.dedupIdx + 1) % ring'.length })

/-- Threads a list of message ids through `isDuplicate`, keeping the
final state. -/
def runDedup (c : OneBotDedup) (ids : List String) : OneBotDedup :=
  ids.foldl (fun s i => (isDuplicate s i).2) c

/-- Closed form of the dedup state after inserting the fresh ids `l`
(in order) into a fresh window of capacity `cap`: all of `l` is in the
set, the ring holds `l` followed by empty slots, and the cursor sits
after `l` (modulo `cap`). -/
def mkDedupSt (cap : Nat) (l : List String) : OneBotDedup :=
  { dedup := l.toFinset
    dedupRing := l ++ List.replicate (cap - l.length) ""
    dedupIdx := l.length % cap }

/-- Invariant of the dedup state: the ring has the configured capacity,
the cursor is in range, the non-empty slots hold pairwise distinct ids,
and the presence set holds exactly the ids of non-empty slots. -/
def DedupInv (s : OneBotDedup) : Prop :=
  s.dedupRing.length = dedupSize ∧ s.dedupIdx < dedupSize ∧
    (s.dedupRing.filter (fun a => a != "")).Nodup ∧
    ∀ a : String, a ∈ s.dedup ↔ (a ≠ "" ∧ a ∈ s.dedupRing)

/-- Go `unicode.IsSpace` on the characters that can occur in chat text:
ASCII whitespace plus the Unicode space separators Go recognizes. -/
def goIsSpace (c : Char) : Bool :=
  c = ' ' ∨ c = '\t' ∨ c = '\n' ∨ c.toNat = 11 ∨ c.toNat = 12 ∨ c = '\r' ∨
    c.toNat = 0x85 ∨ c.toNat = 0xA0 ∨ c.toNat = 0x1680 ∨
    (0x2000 ≤ c.toNat ∧ c.toNat ≤ 0x200A) ∨ c.toNat = 0x2028 ∨
    c.toNat = 0x2029 ∨ c.toNat = 0x202F ∨ c.toNat = 0x205F ∨ c.toNat = 0x3000

/-- Go `strings.TrimSpace`: drop leading and trailing whitespace. -/
def goTrimSpace (s : String) : String :=
  String.mk (((s.data.dropWhile goIsSpace).reverse.dropWhile goIsSpace).reverse)

/-- Go `strings.Contains` on decoded character lists: some position of
the subject starts with the pattern. -/
def containsSeq (pat : List Char) : List Char → Bool
  | [] => pat.isEmpty
  | c :: rest => pat.isPrefixOf (c :: rest) || containsSeq pat rest

/-- Scanning loop of `strings.ReplaceAll(s, pat, "")`, with an explicit
fuel argument so the recursion is structural (and hence reducible by
the kernel): every step consumes at least one character, so fuel equal
to the subject length never runs out. -/
def removeSeqFuel (pat : List Char) : Nat → List Char → List Char
  | 0, s => s
  | _ + 1, [] => []
  | fuel + 1, c :: rest =>
    if pat ≠ [] ∧ pat.isPrefixOf (c :: rest) then
      removeSeqFuel pat fuel ((c :: rest).drop pat.length)
    else
      c :: removeSeqFuel pat fuel rest

/-- Go `strings.ReplaceAll(s, pat, "")`: remove the leftmost
non-overlapping occurrences of `pat`.  For the empty pattern Go's
`Replace` with an empty replacement returns `s` unchanged, which the
`pat ≠ []` guard reproduces. -/
def removeSeq (pat : List Char) (s : List Char) : List Char :=
  removeSeqFuel pat s.length s

/-- The mention token `fmt.Sprintf("[CQ:at,qq=%d]", selfID)`
(part_002:400, 490). -/
def cqAtToken (selfID : Int) : String :=
  "[CQ:at,qq=" ++ toString selfID ++ "]"

/-- Result record of `parseMessageContentEx` (part_002:386-389). -/
structure ParseMessageResult where
  Text : String
  IsBotMentioned : Bool
deriving DecidableEq

/-- Last binding of a key in a decoded JSON object: Go's map decoding
lets a later duplicate key overwrite an earlier one. -/
def lookupLast (k : String) (fields : List (String × JSONValue)) : Option JSONValue :=
  fields.foldl (fun acc p => if p.1 = k then some p.2 else acc) none

/-- Boolean lexicographic order on character lists (Go compares strings
bytewise; on valid UTF-8 the byte order equals the code-point order). -/
def lexLtB : List Char → List Char → Bool
  | [], [] => false
  | [], _ :: _ => true
  | _ :: _, [] => false
  | a :: as, b :: bs =>
    if a.toNat < b.toNat then true
    else if b.toNat < a.toNat then false
    else lexLtB as bs

/-- Last rendered value bound to a key among rendered field pairs. -/
def lookupLastStr (k : String) (ps : List (String × String)) : Option String :=
  ps.foldl (fun acc p => if p.1 = k then some p.2 else acc) none

/-- Insert one rendered field into a key-sorted list. -/
def insertSortedPair (x : String × String) :
    List (String × String) → List (String × String)
  | [] => [x]
  | y :: ys => if lexLtB x.1.data y.1.data then x :: y :: ys else y :: insertSortedPair x ys

/-- Sort rendered fields by key, as `fmt` does before printing a map. -/
def sortPairs : List (String × String) → List (String × String)
  | [] => []
  | x :: xs => insertSortedPair x (sortPairs xs)

/-- Distinct keys with their last rendered value: Go's map decoding has
collapsed duplicate JSON keys (later wins) before `fmt` prints. -/
def collapsePairs (ps : List (String × String)) : List (String × String) :=
  ((ps.map Prod.fst).dedup).filterMap fun k =>
    (lookupLastStr k ps).map fun v => (k, v)

mutual

/-- Go `fmt.Sprintf("%v", x)` on a non-nil value decoded from JSON into
`any` (part_002:427).  Numbers print in plain decimal (faithful on the
integer range where Go's `float64` formatting stays decimal); arrays
print space-separated in brackets; maps print key-sorted. -/
def goFmtVCore : JSONValue → String
  | .absent => "<nil>"
  | .null => "<nil>"
  | .num n => toString n
  | .str s => s
  | .bool b => if b then "true" else "false"
  | .arr l => "[" ++ String.intercalate (" ") (goFmtVList l) ++ "]"
  | .obj f =>
    "map[" ++
      String.intercalate (" ")
        ((sortPairs (collapsePairs (goFmtVPairs f))).map fun p => p.1 ++ ":" ++ p.2) ++ "]"

/-- `%v` renderings of the elements of a decoded JSON array. -/
def goFmtVList : List JSONValue → List String
  | [] => []
  | v :: rest => goFmtVCore v :: goFmtVList rest

/-- Key/`%v`-rendering pairs for the fields of a decoded JSON object. -/
def goFmtVPairs : List (String × JSONValue) → List (String × String)
  | [] => []
  | (k, v) :: rest => (k, goFmtVCore v) :: goFmtVPairs rest

end

/-- Go `fmt.Sprintf("%v", x)` where `x` may be a nil interface (missing
key or JSON `null`), which prints `<nil>`. -/
def goFmtV : Option JSONValue → String
  | none => "<nil>"
  | some v => goFmtVCore v

/-- Go `json.Unmarshal(raw, &segments)` for
`segments : []map[string]any` (part_002:410-411): succeeds only on an
array whose elements are objects or `null` (a `null` element leaves a
nil map, modelled by an empty field list). -/
def segDecode : JSONValue → Option (List (Option (List (String × JSONValue))))
  | .arr elems =>
    elems.mapM fun e =>
      match e with
      | .obj f => some (some f)
      | .null => some none
      | _ => none
  | _ => none

/-- The segment loop of `parseMessageContentEx` (part_002:414-433):
concatenate `text` segment payloads, and note a mention when an `at`
segment targets the bot's own id (or the broadcast wildcard) while
`selfID > 0`. -/
def processSegs (selfID : Int) (segs : List (Option (List (String × JSONValue)))) :
    ParseMessageResult :=
  let selfIDStr := toString selfID
  let step := fun (acc : String × Bool) (seg : Option (List (String × JSONValue))) =>
    let fields := seg.getD []
    let segType := match lookupLast ("type") fields with
      | some (.str t) => t
      | _ => ""
    let dataOpt : Option (List (String × JSONValue)) :=
      match lookupLast ("data") fields with
      | some (.obj f) => some f
      | _ => none
    if segType = "text" then
      match dataOpt with
      | some f =>
        match lookupLast ("text") f with
        | some (.str t) => (acc.1 ++ t, acc.2)
        | _ => acc
      | none => acc
    else if segType = "at" then
      match dataOpt with
      | some f =>
        if selfID > 0 ∧
            (goFmtV (lookupLast ("qq") f) = selfIDStr ∨ goFmtV (lookupLast ("qq") f) = "all") then
          (acc.1, true)
        else acc
      | none => acc
    else acc
  let r := segs.foldl step ("", false)
  { Text := goTrimSpace r.1, IsBotMentioned := r.2 }

/-- `parseMessageContentEx` (part_002:391-437): an absent message yields
the zero result; a JSON string (or `null`, decoding as the empty
string) takes the plain-string path with mention-token stripping; an
array of segment objects takes the segment path; everything else yields
the zero result. -/
def parseMessageContentEx (raw : JSONValue) (selfID : Int) : ParseMessageResult :=
  if raw.isAbsent then { Text := "", IsBotMentioned := false }
  else
    match jsonUnmarshalString raw with
    | some s =>
      if selfID > 0 ∧ containsSeq (cqAtToken selfID).data s.data then
        { Text := goTrimSpace (String.mk (removeSeq (cqAtToken selfID).data s.data))
          IsBotMentioned := true }
      else
        { Text := s, IsBotMentioned := false }
    | none =>
      match segDecode raw with
      | some segs => processSegs selfID segs
      | none => { Text := "", IsBotMentioned := false }

/-- The wire-level event `oneBotRawEvent` (part_002:33-49), restricted
to the fields the message path reads.  `json.RawMessage` fields are
`JSONValue`s (with `absent` for a missing field); string-typed fields
decode to their zero value when missing. -/
structure OneBotRawEvent where
  postType : String
  messageType : String
  subType : String
  messageID : JSONValue
  userID : JSONValue
  groupID : JSONValue
  rawMessage : String
  message : JSONValue
  sender : JSONValue
  selfID : JSONValue
  time : JSONValue
  metaEventType : String

/-- `oneBotSender` (part_002:56-60): `user_id` kept as raw bytes,
`nickname` and `card` as strings. -/
structure OneBotSenderRec where
  userID : JSONValue
  nickname : String
  card : String

/-- The zero `oneBotSender` (nil `RawMessage`, empty strings). -/
def zeroSender : OneBotSenderRec :=
  { userID := JSONValue.absent, nickname := "", card := "" }

/-- Go `json.Unmarshal(raw.Sender, &sender)` (part_002:500): on an
object, each tagged field is filled when its value has the right type
(a mistyped field is recorded as an error but decoding continues, the
field keeping its zero value; a later duplicate key overwrites); on
`null` nothing is touched; on any other shape the struct stays zero. -/
def decodeSender (v : JSONValue) : OneBotSenderRec :=
  match v with
  | .obj fields =>
    fields.foldl
      (fun acc p =>
        if p.1 = "user_id" then { acc with userID := p.2 }
        else if p.1 = "nickname" then
          match p.2 with
          | .str s => { acc with nickname := s }
          | _ => acc
        else if p.1 = "card" then
          match p.2 with
          | .str s => { acc with card := s }
          | _ => acc
        else acc)
      zeroSender
  | _ => zeroSender

/-- The normalized event `oneBotEvent` (part_002:62-76). -/
structure OneBotEvent where
  postType : String
  messageType : String
  subType : String
  messageID : String
  userID : Int
  groupID : Int
  content : String
  rawContent : String
  isBotMentioned : Bool
  sender : OneBotSenderRec
  selfID : Int
  time : Int
  metaEventType : String

/-- `normalizeMessageEvent` (part_002:472-532).  Fails exactly when the
`user_id` field cannot be coerced; `group_id`, `self_id` and `time` are
coerced with the error discarded (keeping the value `ParseInt`
returned); content comes from `raw_message` when non-empty (with
mention-token stripping when `selfID > 0` and the token occurs), and
from the structured decode otherwise; the sender sub-object is decoded
best-effort. -/
def normalizeMessageEvent (raw : OneBotRawEvent) : Option OneBotEvent :=
  match parseJSONInt64 raw.userID with
  | (_, false) => none
  | (userID, true) =>
    let groupID := (parseJSONInt64 raw.groupID).1
    let selfID := (parseJSONInt64 raw.selfID).1
    let ts := (parseJSONInt64 raw.time).1
    let messageID := parseJSONString raw.messageID
    let parsed := parseMessageContentEx raw.message selfID
    let cm : String × Bool :=
      if raw.rawMessage = "" then (parsed.Text, parsed.IsBotMentioned)
      else
        if selfID > 0 ∧ containsSeq (cqAtToken selfID).data raw.rawMessage.data then
          (goTrimSpace (String.mk (removeSeq (cqAtToken selfID).data raw.rawMessage.data)),
            true)
        else (raw.rawMessage, parsed.IsBotMentioned)
    let sender := if raw.sender.isAbsent then zeroSender else decodeSender raw.sender
    some
      { postType := raw.postType
        messageType := raw.messageType
        subType := raw.subType
        messageID := messageID
        userID := userID
        groupID := groupID
        content := cm.1
        rawContent := raw.rawMessage
        isBotMentioned := cm.2
        sender := sender
        selfID := selfID
        time := ts
        metaEventType := raw.metaEventType }

/-- The prefix scan inside `checkGroupTrigger` (part_002:676-683):
skip empty configured prefixes; the first one that begins the content
triggers, with the prefix dropped and the remainder trimmed. -/
def scanTriggerPfx (content : String) : List String → Bool × String
  | [] => (false, content)
  | p :: rest =>
    if p = "" then scanTriggerPfx content rest
    else if p.data.isPrefixOf content.data then
      (true, goTrimSpace (String.mk (content.data.drop p.data.length)))
    else scanTriggerPfx content rest

/-- `checkGroupTrigger` (part_002:671-686): a direct mention triggers
with the trimmed content; otherwise the configured prefixes are scanned
in order; no match leaves the content unchanged and untriggered. -/
def checkGroupTrigger (pfxs : List String) (content : String) (isBotMentioned : Bool) :
    Bool × String :=
  if isBotMentioned then (true, goTrimSpace content)
  else scanTriggerPfx content pfxs

/-- Parameters of the two send actions (part_002:84-92). -/
inductive OneBotSendParams where
  | privateMsg (userID : Int) (message : String)
  | groupMsg (groupID : Int) (message : String)
deriving DecidableEq

/-- `buildSendRequest` (part_002:258-292): `group:<n>` with a valid
int64 suffix maps to `send_group_msg`; `private:<n>` with a valid int64
suffix, or a bare id parsing as int64, maps to `send_private_msg`;
anything else is a validation error (`none`).  Go's byte-level length
test and slice comparison coincide with the character-level ones here
because the literals are ASCII. -/
def buildSendRequest (chatID : String) (content : String) :
    Option (String × OneBotSendParams) :=
  if chatID.data.length > 6 ∧ chatID.data.take 6 = ("group:").data then
    match goParseInt64 (String.mk (chatID.data.drop 6)) with
    | (g, true) => some ("send_group_msg", OneBotSendParams.groupMsg g content)
    | (_, false) => none
  else if chatID.data.length > 8 ∧ chatID.data.take 8 = ("private:").data then
    match goParseInt64 (String.mk (chatID.data.drop 8)) with
    | (u, true) => some ("send_private_msg", OneBotSendParams.privateMsg u content)
    | (_, false) => none
  else
    match goParseInt64 chatID with
    | (u, true) => some ("send_private_msg", OneBotSendParams.privateMsg u content)
    | (_, false) => none

/-- `oneBotAPIRequest` (part_002:78-82). -/
structure OneBotAPIRequest where
  action : String
  params : OneBotSendParams
  echo : String
deriving DecidableEq

/-- The channel state `Send`, `connect` and the listener's error path
touch: whether a live connection handle is present, the running flag,
and the echo counter.  `echoCounter` is the Go `int64` field
`c.echoCounter`; the int64 overflow of the source's `c.echoCounter++`
is applied by `int64Wrap` at the increment in `Send`, so every
reachable counter value stays in the int64 range. -/
structure OneBotChannelState where
  conn : Bool
  running : Bool
  echoCounter : Int
deriving DecidableEq

/-- `connect` (part_002:141-161) as seen by this state: it stores a
fresh connection handle and touches nothing else — in particular the
echo counter keeps its value. -/
def connectChan (st : OneBotChannelState) : OneBotChannelState :=
  { st with conn := true }

/-- The listener's read-error path (part_002:314-319) / `Stop`
(part_002:200-205): the connection handle is closed and cleared. -/
def clearConn (st : OneBotChannelState) : OneBotChannelState :=
  { st with conn := false }

/-- `Send` (part_002:210-256): fails when not running, when no
connection is present, or when `buildSendRequest` rejects the chat id;
otherwise the counter is incremented under the write lock — Go int64
arithmetic, so the increment wraps at `MaxInt64` — and the request goes
out with echo `send_<counter>`.  (Marshalling of the request struct
cannot fail.) -/
def Send (st : OneBotChannelState) (chatID content : String) :
    Option OneBotAPIRequest × OneBotChannelState :=
  if st.running = false then (none, st)
  else if st.conn = false then (none, st)
  else
    match buildSendRequest chatID content with
    | none => (none, st)
    | some (action, params) =>
      let n := int64Wrap (st.echoCounter + 1)
      (some { action := action, params := params, echo := "send_" ++ toString n },
        { st with echoCounter := n })

/-- The channel state after a sequence of `Send` calls. -/
def runSendState (st : OneBotChannelState) : List (String × String) → OneBotChannelState
  | [] => st
  | m :: ms => runSendState (Send st m.1 m.2).2 ms

/-- The `(counter, echo)` pairs of the successful sends of a call
sequence, in order. -/
def runSendEchos (st : OneBotChannelState) : List (String × String) → List (Int × String)
  | [] => []
  | m :: ms =>
    match Send st m.1 m.2 with
    | (some req, st') => (st'.echoCounter, req.echo) :: runSendEchos st' ms
    | (none, st') => runSendEchos st' ms

/-- One call to the bus collaborator
(`c.HandleMessage(senderID, chatID, content, []string, metadata)`,
part_002:638).  The metadata map is modelled as its insertion-ordered
pair list. -/
structure BusCall where
  senderID : String
  chatID : String
  content : String
  mediaPaths : List String
  metadata : List (String × String)

/-- `handleMessage` (part_002:549-639): drop duplicates (the dedup
check itself records the id), drop empty content, then route by message
type — private directly, group through the trigger check — building the
metadata the source builds; unknown types are dropped. -/
def handleMessage (pfxs : List String) (st : OneBotDedup) (evt : OneBotEvent) :
    Option BusCall × OneBotDedup :=
  match isDuplicate st evt.messageID with
  | (true, st') => (none, st')
  | (false, st') =>
    if evt.content = "" then (none, st')
    else
      let senderID := toString evt.userID
      let md0 := [("message_id", evt.messageID)]
      if evt.messageType = "private" then
        let chatID := "private:" ++ senderID
        let md := md0 ++ (if evt.sender.nickname ≠ "" then [("nickname", evt.sender.nickname)] else [])
        (some { senderID := senderID, chatID := chatID, content := evt.content
                mediaPaths := [], metadata := md }, st')
      else if evt.messageType = "group" then
        let groupIDStr := toString evt.groupID
        let chatID := "group:" ++ groupIDStr
        let md1 := md0 ++ [("group_id", groupIDStr)]
        let senderUserID := (parseJSONInt64 evt.sender.userID).1
        let md2 := md1 ++ (if senderUserID > 0 then [("sender_user_id", toString senderUserID)] else [])
        let md3 := md2 ++
          (if evt.sender.card ≠ "" then [("sender_name", evt.sender.card)]
           else if evt.sender.nickname ≠ "" then [("sender_name", evt.sender.nickname)]
           else [])
        match checkGroupTrigger pfxs evt.content evt.isBotMentioned with
        | (false, _) => (none, st')
        | (true, stripped) =>
          let md4 := md3 ++ (if evt.sender.nickname ≠ "" then [("nickname", evt.sender.nickname)] else [])
          (some { senderID := senderID, chatID := chatID, content := stripped
                  mediaPaths := [], metadata := md4 }, st')
      else (none, st')

/-- A string of `n` letters `a` (used to build many distinct ids). -/
def witnessStr (n : Nat) : String :=
  String.mk (List.replicate n 'a')

/-- `dedupSize` pairwise distinct message ids, none empty and none
`"0"`. -/
def witnessIds : List String :=
  (List.range dedupSize).map (fun n => witnessStr (n + 1))

/-- A normalized event with empty content (the shape `handleMessage`
silently drops). -/
def evtEmptyContent : OneBotEvent :=
  { postType := "message", messageType := "private", subType := ""
    messageID := "m1", userID := 7, groupID := 0, content := ""
    rawContent := "", isBotMentioned := false, sender := zeroSender
    selfID := 0, time := 0, metaEventType := "" }

/-- A raw event whose `group_id` is a numeric string one past
`MaxInt64`: its coercion fails with Go's range error, which returns the
clamped extreme rather than zero. -/
def rawGroupOverflow : OneBotRawEvent :=
  { postType := "message", messageType := "group", subType := ""
    messageID := JSONValue.absent, userID := JSONValue.num 1
    groupID := JSONValue.str ("9223372036854775808"), rawMessage := "x"
    message := JSONValue.absent, sender := JSONValue.absent
    selfID := JSONValue.absent, time := JSONValue.absent, metaEventType := "" }

/-- The event `rawGroupOverflow` normalizes to. -/
def evtGroupOverflow : OneBotEvent :=
  { postType := "message", messageType := "group", subType := ""
    messageID := "", userID := 1, groupID := 9223372036854775807
    content := "x", rawContent := "x", isBotMentioned := false
    sender := zeroSender, selfID := 0, time := 0, metaEventType := "" }

/-- A well-formed raw private message (used to exercise the coercion
rules of normalization on concrete input). -/
def rawPrivateOk : OneBotRawEvent :=
  { postType := "message", messageType := "private", subType := ""
    messageID := JSONValue.num 9, userID := JSONValue.num 42
    groupID := JSONValue.absent, rawMessage := "hi"
    message := JSONValue.str ("hi"), sender := JSONValue.absent
    selfID := JSONValue.absent, time := JSONValue.num 1700000000
    metaEventType := "" }

/-- A raw group message whose top-level `raw_message` carries the
mention token, while the structured `message` field holds different
text (used to exercise raw-message precedence on concrete input). -/
def rawMentionPrecedence : OneBotRawEvent :=
  { postType := "message", messageType := "group", subType := ""
    messageID := JSONValue.num 9, userID := JSONValue.num 1
    groupID := JSONValue.num 456, rawMessage := "[CQ:at,qq=7] hi"
    message := JSONValue.str ("IGNORED"), sender := JSONValue.absent
    selfID := JSONValue.num 7, time := JSONValue.absent, metaEventType := "" }

/-- A running, connected channel state with the echo counter at zero. -/
def chanStart : OneBotChannelState :=
  { conn := true, running := true, echoCounter := 0 }

theorem strMk_data (s : String) : String.mk s.data = s := rfl

theorem goParseInt64_nil (s : String) (h : s.data = []) : goParseInt64 s = (0, false) := by
  unfold goParseInt64
  rw [h]

/-- C4: `isDuplicate` on the no-id values `""` and `"0"` reports `false`
and leaves the dedup state — presence set, ring buffer and cursor —
completely unchanged, in every state. -/
theorem isDuplicate_noid_frame (c : OneBotDedup) :
    isDuplicate c ("") = (false, c) ∧ isDuplicate c ("0") = (false, c) := by
  refine ⟨?_, ?_⟩ <;> simp [isDuplicate]

theorem scanTriggerPfx_no_match (content : String) (ps : List String)
    (h : ∀ p ∈ ps, p ≠ "" → p.data.isPrefixOf content.data = false) :
    scanTriggerPfx content ps = (false, content) := by
  induction ps with
  | nil => rfl
  | cons p rest ih =>
    have ih' := ih fun q hq hq' => h q (List.mem_cons_of_mem _ hq) hq'
    by_cases hp : p = ""
    · simpa [scanTriggerPfx, hp] using ih'
    · have hf : p.data.isPrefixOf content.data = false := h p (List.mem_cons_self _ _) hp
      simpa [scanTriggerPfx, hp, hf] using ih'

theorem scanTriggerPfx_hit (content p : String) (l2 : List String)
    (hp : p ≠ "") (hpre : p.data.isPrefixOf content.data = true)
    (l1 : List String)
    (h : ∀ q ∈ l1, q ≠ "" → q.data.isPrefixOf content.data = false) :
    scanTriggerPfx content (l1 ++ p :: l2) =
      (true, goTrimSpace (String.mk (content.data.drop p.data.length))) := by
  induction l1 with
  | nil => simp [scanTriggerPfx, hp, hpre]
  | cons q rest ih =>
    have ih' := ih fun r hr hr' => h r (List.mem_cons_of_mem _ hr) hr'
    by_cases hq : q = ""
    · simpa [scanTriggerPfx, hq] using ih'
    · have hf : q.data.isPrefixOf content.data = false := h q (List.mem_cons_self _ _) hq
      simpa [scanTriggerPfx, hq, hf] using ih'

/-- C7: `checkGroupTrigger` triggers on a mention with the trimmed
content; otherwise the configured non-empty prefixes are tested in
order, the first match triggering with the prefix removed and the
remainder trimmed; with no match the content is returned unchanged and
untriggered. -/
theorem checkGroupTrigger_spec (pfxs : List String) (content : String) :
    checkGroupTrigger pfxs content true = (true, goTrimSpace content) ∧
    ((∀ p ∈ pfxs, p ≠ "" → p.data.isPrefixOf content.data = false) →
      checkGroupTrigger pfxs content false = (false, content)) ∧
    (∀ l1 p l2, pfxs = l1 ++ p :: l2 → p ≠ "" →
      p.data.isPrefixOf content.data = true →
      (∀ q ∈ l1, q ≠ "" → q.data.isPrefixOf content.data = false) →
      checkGroupTrigger pfxs content false =
        (true, goTrimSpace (String.mk (content.data.drop p.data.length)))) := by
  refine ⟨by simp [checkGroupTrigger], ?_, ?_⟩
  · intro h
    simpa [checkGroupTrigger] using scanTriggerPfx_no_match content pfxs h
  · intro l1 p l2 hps hp hpre hl1
    subst hps
    simpa [checkGroupTrigger] using scanTriggerPfx_hit content p l2 hp hpre l1 hl1

/-- Witness for C7: the spec's own example, prefixes `["!bot "]`. -/
theorem checkGroupTrigger_spec_witness :
    checkGroupTrigger [("!bot ")] ("!bot hello") false = (true, ("hello")) ∧
    checkGroupTrigger [("!bot ")] ("hello") false = (false, ("hello")) := by
  constructor
  · have h := (checkGroupTrigger_spec [("!bot ")] ("!bot hello")).2.2 [] ("!bot ") []
      rfl (by decide) (by decide) (by simp)
    rw [h]
    decide
  · exact (checkGroupTrigger_spec [("!bot ")] ("hello")).2.1 (by decide)

theorem buildSendRequest_scoped_data (pfx s : String) :
    (pfx ++ s).data = pfx.data ++ s.data := String.data_append pfx s

/-- C8: `buildSendRequest` maps `group:<n>` with a valid int64 suffix to
`send_group_msg` with that group id; `private:<n>` with a valid int64
suffix, or a bare id parsing as int64, to `send_private_msg` with that
user id; and rejects (returns no request for) any chat id whose
applicable numeric part does not parse. -/
theorem buildSendRequest_spec :
    (∀ s content n, goParseInt64 s = (n, true) →
      buildSendRequest ("group:" ++ s) content =
        some ("send_group_msg", OneBotSendParams.groupMsg n content)) ∧
    (∀ s content n, goParseInt64 s = (n, true) →
      buildSendRequest ("private:" ++ s) content =
        some ("send_private_msg", OneBotSendParams.privateMsg n content)) ∧
    (∀ chatID content n,
      ¬(chatID.data.length > 6 ∧ chatID.data.take 6 = ("group:").data) →
      ¬(chatID.data.length > 8 ∧ chatID.data.take 8 = ("private:").data) →
      goParseInt64 chatID = (n, true) →
      buildSendRequest chatID content =
        some ("send_private_msg", OneBotSendParams.privateMsg n content)) ∧
    (∀ s content, (goParseInt64 s).2 = false →
      buildSendRequest ("group:" ++ s) content = none) ∧
    (∀ s content, (goParseInt64 s).2 = false →
      buildSendRequest ("private:" ++ s) content = none) ∧
    (∀ chatID content,
      ¬(chatID.data.length > 6 ∧ chatID.data.take 6 = ("group:").data) →
      ¬(chatID.data.length > 8 ∧ chatID.data.take 8 = ("private:").data) →
      (goParseInt64 chatID).2 = false →
      buildSendRequest chatID content = none) := by
  have hg6 : ("group:").data.length = 6 := rfl
  have hp8 : ("private:").data.length = 8 := rfl
  have hgroup : ∀ s : String, s.data ≠ [] →
      ("group:" ++ s).data.length > 6 ∧
        ("group:" ++ s).data.take 6 = ("group:").data ∧
        String.mk (("group:" ++ s).data.drop 6) = s := by
    intro s hs
    rw [buildSendRequest_scoped_data]
    refine ⟨?_, ?_, ?_⟩
    · rw [List.length_append, hg6]
      have := List.length_pos.mpr hs
      omega
    · rw [← hg6, List.take_left]
    · rw [← hg6, List.drop_left, strMk_data]
  have hpriv : ∀ s : String, s.data ≠ [] →
      ("private:" ++ s).data.length > 8 ∧
        ("private:" ++ s).data.take 8 = ("private:").data ∧
        String.mk (("private:" ++ s).data.drop 8) = s := by
    intro s hs
    rw [buildSendRequest_scoped_data]
    refine ⟨?_, ?_, ?_⟩
    · rw [List.length_append, hp8]
      have := List.length_pos.mpr hs
      omega
    · rw [← hp8, List.take_left]
    · rw [← hp8, List.drop_left, strMk_data]
  have hprivNotGroup : ∀ s : String,
      ¬(("private:" ++ s).data.length > 6 ∧
        ("private:" ++ s).data.take 6 = ("group:").data) := by
    intro s h
    have h2 := h.2
    rw [buildSendRequest_scoped_data] at h2
    have h6 : (("private:").data ++ s.data).take 6 = ("privat").data := by
      have : ("private:").data = ("privat").data ++ ("e:").data := rfl
      rw [this, List.append_assoc, ← show (("privat").data.length = 6) from rfl,
        List.take_left]
    rw [h6] at h2
    exact absurd h2 (by decide)
  have hnonempty : ∀ (s : String) (n : Int), goParseInt64 s = (n, true) → s.data ≠ [] := by
    intro s n hp hnil
    rw [goParseInt64_nil s hnil] at hp
    exact absurd hp (by simp)
  refine ⟨?_, ?_, ?_, ?_, ?_, ?_⟩
  · intro s content n hp
    obtain ⟨h1, h2, h3⟩ := hgroup s (hnonempty s n hp)
    unfold buildSendRequest
    rw [if_pos ⟨h1, h2⟩, h3, hp]
  · intro s content n hp
    obtain ⟨h1, h2, h3⟩ := hpriv s (hnonempty s n hp)
    unfold buildSendRequest
    rw [if_neg (hprivNotGroup s), if_pos ⟨h1, h2⟩, h3, hp]
  · intro chatID content n hng hnp hp
    unfold buildSendRequest
    rw [if_neg hng, if_neg hnp, hp]
  · intro s content hp
    by_cases hs : s.data = []
    · have hempty : s = "" := by rw [← strMk_data s, hs]
      subst hempty
      have he : ("group:" ++ "") = ("group:" : String) := by decide
      rw [he]
      unfold buildSendRequest
      rw [if_neg (by decide), if_neg (by decide),
        show goParseInt64 ("group:") = (0, false) from by decide]
    · obtain ⟨h1, h2, h3⟩ := hgroup s hs
      unfold buildSendRequest
      rw [if_pos ⟨h1, h2⟩, h3]
      have : goParseInt64 s = ((goParseInt64 s).1, false) := by
        rw [← hp]
      rw [this]
  · intro s content hp
    by_cases hs : s.data = []
    · have hempty : s = "" := by rw [← strMk_data s, hs]
      subst hempty
      have he : ("private:" ++ "") = ("private:" : String) := by decide
      rw [he]
      unfold buildSendRequest
      rw [if_neg (by decide), if_neg (by decide),
        show goParseInt64 ("private:") = (0, false) from by decide]
    · obtain ⟨h1, h2, h3⟩ := hpriv s hs
      unfold buildSendRequest
      rw [if_neg (hprivNotGroup s), if_pos ⟨h1, h2⟩, h3]
      have : goParseInt64 s = ((goParseInt64 s).1, false) := by
        rw [← hp]
      rw [this]
  · intro chatID content hng hnp hp
    unfold buildSendRequest
    rw [if_neg hng, if_neg hnp]
    have : goParseInt64 chatID = ((goParseInt64 chatID).1, false) := by
      rw [← hp]
    rw [this]

/-- Witness for C8: concrete group, private, bare and malformed chat
ids. -/
theorem buildSendRequest_spec_witness :
    buildSendRequest ("group:123") ("m") =
      some ("send_group_msg", OneBotSendParams.groupMsg 123 ("m")) ∧
    buildSendRequest ("private:45") ("m") =
      some ("send_private_msg", OneBotSendParams.privateMsg 45 ("m")) ∧
    buildSendRequest ("678") ("m") =
      some ("send_private_msg", OneBotSendParams.privateMsg 678 ("m")) ∧
    buildSendRequest ("group:abc") ("m") = none ∧
    buildSendRequest ("nonsense") ("m") = none := by
  refine ⟨?_, ?_, ?_, ?_, ?_⟩
  · have h := buildSendRequest_spec.1 ("123") ("m") 123 (by decide)
    exact (by decide : ("group:123") = ("group:" ++ "123")) ▸ h
  · have h := buildSendRequest_spec.2.1 ("45") ("m") 45 (by decide)
    exact (by decide : ("private:45") = ("private:" ++ "45")) ▸ h
  · exact buildSendRequest_spec.2.2.1 ("678") ("m") 678 (by decide) (by decide) (by decide)
  · have h := buildSendRequest_spec.2.2.2.1 ("abc") ("m") (by decide)
    exact (by decide : ("group:abc") = ("group:" ++ "abc")) ▸ h
  · exact buildSendRequest_spec.2.2.2.2.2 ("nonsense") ("m") (by decide) (by decide) (by decide)

/-- Counterexample for C1.  First clause: the claim says a JSON string
decodes by parsing the *trimmed* string, but the source passes the
string to `strconv.ParseInt` untrimmed, so `" 5"` fails even though its
trimmed parse succeeds.  Second clause: the claim says a JSON number
yields that number directly, but a number beyond `int64` fails both
decode paths. -/
theorem parseJSONInt64_claim_cex :
    ¬(∀ s : String, (goParseInt64 (goTrimSpace s)).2 = true →
        parseJSONInt64 (JSONValue.str s) = ((goParseInt64 (goTrimSpace s)).1, true)) ∧
    ¬(∀ n : Int, parseJSONInt64 (JSONValue.num n) = (n, true)) := by
  constructor
  · intro h
    have h2 := h (" 5") (by decide)
    have h3 : parseJSONInt64 (JSONValue.str (" 5")) = (0, false) := by decide
    have h4 : (goParseInt64 (goTrimSpace (" 5"))).1 = 5 := by decide
    rw [h3, h4] at h2
    exact absurd h2 (by decide)
  · intro h
    have h2 := h (2 ^ 63)
    have h3 : parseJSONInt64 (JSONValue.num (2 ^ 63)) = (0, false) := by decide
    rw [h3] at h2
    have h4 : (0 : Int) = 2 ^ 63 := congrArg Prod.fst h2
    exact absurd h4 (by decide)

/-- C1 (amended): absent and `null` wire values decode to zero with no
error; a JSON number yields that number when it is representable in
`int64`; a JSON string yields Go's integer parse of the exact
(untrimmed) string content; and an error is reported exactly when the
direct numeric decode fails and the string-decode-then-parse path also
fails. -/
theorem parseJSONInt64_spec (v : JSONValue) :
    parseJSONInt64 JSONValue.absent = (0, true) ∧
    parseJSONInt64 JSONValue.null = (0, true) ∧
    (∀ n : Int, int64Min ≤ n → n ≤ int64Max →
      parseJSONInt64 (JSONValue.num n) = (n, true)) ∧
    (∀ s : String, parseJSONInt64 (JSONValue.str s) = goParseInt64 s) ∧
    ((parseJSONInt64 v).2 = false ↔
      (v.isAbsent = false ∧ jsonUnmarshalInt64 v = none ∧
        ∀ s, jsonUnmarshalString v = some s → (goParseInt64 s).2 = false)) := by
  refine ⟨rfl, rfl, ?_, ?_, ?_⟩
  · intro n h1 h2
    simp [parseJSONInt64, jsonUnmarshalInt64, JSONValue.isAbsent, h1, h2]
  · intro s
    rfl
  · cases v with
    | absent => simp [parseJSONInt64, JSONValue.isAbsent]
    | null => simp [parseJSONInt64, jsonUnmarshalInt64, jsonUnmarshalString, JSONValue.isAbsent]
    | num n =>
      by_cases hr : int64Min ≤ n ∧ n ≤ int64Max
      · simp [parseJSONInt64, jsonUnmarshalInt64, jsonUnmarshalString, JSONValue.isAbsent, hr]
      · simp [parseJSONInt64, jsonUnmarshalInt64, jsonUnmarshalString, JSONValue.isAbsent, hr]
    | str s =>
      simp [parseJSONInt64, jsonUnmarshalInt64, jsonUnmarshalString, JSONValue.isAbsent]
    | bool b => simp [parseJSONInt64, jsonUnmarshalInt64, jsonUnmarshalString, JSONValue.isAbsent]
    | arr l => simp [parseJSONInt64, jsonUnmarshalInt64, jsonUnmarshalString, JSONValue.isAbsent]
    | obj f => simp [parseJSONInt64, jsonUnmarshalInt64, jsonUnmarshalString, JSONValue.isAbsent]

/-- Witness for C1: the amended clauses at the spec's own examples
(`5`, `"5"`, absent, `"abc"`). -/
theorem parseJSONInt64_spec_witness :
    parseJSONInt64 (JSONValue.num 5) = (5, true) ∧
    parseJSONInt64 (JSONValue.str ("5")) = goParseInt64 ("5") ∧
    parseJSONInt64 JSONValue.absent = (0, true) ∧
    (parseJSONInt64 (JSONValue.str ("abc"))).2 = false := by
  refine ⟨?_, ?_, ?_, ?_⟩
  · exact (parseJSONInt64_spec JSONValue.absent).2.2.1 5 (by decide) (by decide)
  · exact (parseJSONInt64_spec JSONValue.absent).2.2.2.1 ("5")
  · exact (parseJSONInt64_spec JSONValue.absent).1
  · exact ((parseJSONInt64_spec (JSONValue.str ("abc"))).2.2.2.2).mpr
      (by refine ⟨rfl, rfl, ?_⟩; intro s hs; cases hs; decide)

theorem int64Wrap_eq_self (n : Int) (h1 : int64Min ≤ n) (h2 : n ≤ int64Max) :
    int64Wrap n = n := by
  unfold int64Wrap
  unfold int64Min at h1
  unfold int64Max at h2
  have h63 : (2 : Int) ^ 63 = 9223372036854775808 := by norm_num
  have h64 : (2 : Int) ^ 64 = 18446744073709551616 := by norm_num
  rw [h63] at h1 h2 ⊢
  rw [h64]
  omega

theorem send_success_counter (st : OneBotChannelState) (chatID content : String)
    (req : OneBotAPIRequest) (st' : OneBotChannelState)
    (h : Send st chatID content = (some req, st')) :
    st'.echoCounter = int64Wrap (st.echoCounter + 1) ∧
      req.echo = "send_" ++ toString st'.echoCounter := by
  unfold Send at h
  split at h
  · exact absurd (congrArg Prod.fst h) (by simp)
  · split at h
    · exact absurd (congrArg Prod.fst h) (by simp)
    · split at h
      · exact absurd (congrArg Prod.fst h) (by simp)
      · have h1 := congrArg Prod.fst h
        have h2 := congrArg Prod.snd h
        simp only [Prod.fst, Prod.snd, Option.some.injEq] at h1 h2
        rw [← h2, ← h1]
        exact ⟨rfl, rfl⟩

theorem send_fail_state (st : OneBotChannelState) (chatID content : String)
    (st' : OneBotChannelState) (h : Send st chatID content = (none, st')) :
    st' = st := by
  unfold Send at h
  split at h
  · exact (congrArg Prod.snd h).symm
  · split at h
    · exact (congrArg Prod.snd h).symm
    · split at h
      · exact (congrArg Prod.snd h).symm
      · exact absurd (congrArg Prod.fst h) (by simp)

theorem send_success_counter_incr (st : OneBotChannelState) (chatID content : String)
    (req : OneBotAPIRequest) (st' : OneBotChannelState)
    (h : Send st chatID content = (some req, st'))
    (hlo : int64Min ≤ st.echoCounter) (hhi : st.echoCounter < int64Max) :
    st'.echoCounter = st.echoCounter + 1 := by
  rw [(send_success_counter st chatID content req st' h).1]
  apply int64Wrap_eq_self
  · unfold int64Min at hlo ⊢
    omega
  · omega

theorem runSendEchos_bounded (msgs : List (String × String)) :
    ∀ st : OneBotChannelState, int64Min ≤ st.echoCounter →
      st.echoCounter + (msgs.length : Int) ≤ int64Max →
      (List.Chain' (fun a b : Int × String => a.1 < b.1) (runSendEchos st msgs) ∧
        ∀ p ∈ runSendEchos st msgs,
          st.echoCounter < p.1 ∧ p.2 = "send_" ++ toString p.1) ∧
      int64Min ≤ (runSendState st msgs).echoCounter ∧
      (runSendState st msgs).echoCounter ≤ st.echoCounter + (msgs.length : Int) := by
  induction msgs with
  | nil =>
    intro st hlo _
    refine ⟨⟨List.chain'_nil, by simp [runSendEchos]⟩, ?_, ?_⟩
    · exact hlo
    · simp [runSendState]
  | cons m ms ih =>
    intro st hlo hhi
    have hlen : ((m :: ms).length : Int) = (ms.length : Int) + 1 := by
      simp only [List.length_cons]
      push_cast
      ring
    cases hs : Send st m.1 m.2 with
    | mk r st' =>
      cases r with
      | none =>
        have hst : st' = st := send_fail_state st m.1 m.2 st' hs
        rw [hst] at hs
        have hih := ih st hlo (by rw [hlen] at hhi; omega)
        have hruneq : runSendEchos st (m :: ms) = runSendEchos st ms := by
          simp only [runSendEchos, hs]
        have hseq : runSendState st (m :: ms) = runSendState st ms := by
          simp only [runSendState, hs]
        rw [hruneq, hseq, hlen]
        refine ⟨hih.1, hih.2.1, ?_⟩
        have := hih.2.2
        omega
      | some req =>
        have hc : st'.echoCounter = st.echoCounter + 1 :=
          send_success_counter_incr st m.1 m.2 req st' hs hlo
            (by rw [hlen] at hhi; omega)
        have hecho : req.echo = "send_" ++ toString st'.echoCounter :=
          (send_success_counter st m.1 m.2 req st' hs).2
        have hih := ih st' (by rw [hc]; unfold int64Min at hlo ⊢; omega)
          (by rw [hc]; rw [hlen] at hhi; omega)
        have hruneq : runSendEchos st (m :: ms) =
            (st'.echoCounter, req.echo) :: runSendEchos st' ms := by
          simp only [runSendEchos, hs]
        have hseq : runSendState st (m :: ms) = runSendState st' ms := by
          simp only [runSendState, hs]
        rw [hruneq, hseq, hlen]
        refine ⟨⟨?_, ?_⟩, hih.2.1, ?_⟩
        · refine List.chain'_cons'.mpr ⟨?_, hih.1.1⟩
          intro q hq
          have hq' : q ∈ runSendEchos st' ms := List.mem_of_mem_head? hq
          exact (hih.1.2 q hq').1
        · intro p hp
          rcases List.mem_cons.mp hp with hph | hpt
          · rw [hph]
            exact ⟨by rw [hc]; omega, hecho⟩
          · obtain ⟨hlt, he⟩ := hih.1.2 p hpt
            refine ⟨?_, he⟩
            have : st.echoCounter < st'.echoCounter := by rw [hc]; omega
            exact lt_trans this hlt
        · have := hih.2.2
          omega

/-- Counterexample for C9.  First, the echo counter lives in the
channel, not the connection: `connect` does not reset it, so after a
drop and reconnect the first send carries `send_2`, not a fresh
`send_1`, refuting per-connection scoping.  Second, the counter is a Go
int64, so the increment wraps at `MaxInt64`: from a state with the
counter at `MaxInt64` a successful send produces `MinInt64`, refuting
unconditional strict monotonicity. -/
theorem send_echo_scope_cex :
    ¬(∀ st : OneBotChannelState, ∀ chatID content req st',
        Send (connectChan st) chatID content = (some req, st') →
        req.echo = "send_" ++ toString (1 : Int)) ∧
    (Send chanStart ("5") ("a")).1.map OneBotAPIRequest.echo = some ("send_1") ∧
    (Send (connectChan (clearConn (Send chanStart ("5") ("a")).2)) ("5") ("b")).1.map
        OneBotAPIRequest.echo = some ("send_2") ∧
    ("send_2") ≠ ("send_1") ∧
    (Send { conn := true, running := true, echoCounter := int64Max } ("5") ("a")).2.echoCounter =
      int64Min ∧
    int64Min < int64Max := by
  refine ⟨?_, by decide, by decide, by decide, by decide, by decide⟩
  intro h
  have h2 := h (clearConn (Send chanStart ("5") ("a")).2) ("5") ("b")
    { action := "send_private_msg", params := OneBotSendParams.privateMsg 5 ("b"),
      echo := "send_2" }
    { conn := true, running := true, echoCounter := 2 }
    (by decide)
  exact absurd h2 (by decide)

/-- C9 (amended): every successful `Send` advances the channel's int64
echo counter by one (with int64 wraparound at `MaxInt64`) and stamps
the request `send_<counter>`; failed sends leave the state unchanged;
over any call sequence that cannot overflow the counter the emitted
echo numbers strictly increase; and the counter belongs to the
channel — `connect` after a drop preserves it rather than starting a
fresh per-connection sequence. -/
theorem send_echo_monotonic :
    (∀ st : OneBotChannelState, ∀ chatID content req st',
      Send st chatID content = (some req, st') →
      st'.echoCounter = int64Wrap (st.echoCounter + 1) ∧
        req.echo = "send_" ++ toString st'.echoCounter) ∧
    (∀ st : OneBotChannelState, ∀ chatID content req st',
      Send st chatID content = (some req, st') →
      int64Min ≤ st.echoCounter → st.echoCounter < int64Max →
      st'.echoCounter = st.echoCounter + 1) ∧
    (∀ st : OneBotChannelState, ∀ chatID content st',
      Send st chatID content = (none, st') → st' = st) ∧
    (∀ st : OneBotChannelState, ∀ msgs, int64Min ≤ st.echoCounter →
      st.echoCounter + (msgs.length : Int) ≤ int64Max →
      List.Chain' (fun a b : Int × String => a.1 < b.1) (runSendEchos st msgs) ∧
      ∀ p ∈ runSendEchos st msgs,
        st.echoCounter < p.1 ∧ p.2 = "send_" ++ toString p.1) ∧
    (∀ st : OneBotChannelState,
      (connectChan st).echoCounter = st.echoCounter ∧
        (clearConn st).echoCounter = st.echoCounter) :=
  ⟨send_success_counter,
    fun st chatID content req st' h hlo hhi =>
      send_success_counter_incr st chatID content req st' h hlo hhi,
    fun st chatID content st' h => send_fail_state st chatID content st' h,
    fun st msgs hlo hhi => (runSendEchos_bounded msgs st hlo hhi).1,
    fun _ => ⟨rfl, rfl⟩⟩

/-- Witness for C9: one concrete successful send from the start state,
exercising both the wrap equation and the in-range increment. -/
theorem send_echo_monotonic_witness :
    (({ conn := true, running := true, echoCounter := 1 } : OneBotChannelState).echoCounter =
        int64Wrap (chanStart.echoCounter + 1) ∧
      ({ action := "send_private_msg", params := OneBotSendParams.privateMsg 5 ("a"),
          echo := "send_1" } : OneBotAPIRequest).echo =
        "send_" ++ toString
          ({ conn := true, running := true, echoCounter := 1 } :
            OneBotChannelState).echoCounter) ∧
    ({ conn := true, running := true, echoCounter := 1 } : OneBotChannelState).echoCounter =
      chanStart.echoCounter + 1 ∧
    List.Chain' (fun a b : Int × String => a.1 < b.1)
      (runSendEchos chanStart [(("5"), ("a")), (("5"), ("b"))]) := by
  refine ⟨?_, ?_, ?_⟩
  · exact send_echo_monotonic.1 chanStart ("5") ("a")
      { action := "send_private_msg", params := OneBotSendParams.privateMsg 5 ("a"),
        echo := "send_1" }
      { conn := true, running := true, echoCounter := 1 }
      (by decide)
  · exact send_echo_monotonic.2.1 chanStart ("5") ("a")
      { action := "send_private_msg", params := OneBotSendParams.privateMsg 5 ("a"),
        echo := "send_1" }
      { conn := true, running := true, echoCounter := 1 }
      (by decide) (by decide) (by decide)
  · exact (send_echo_monotonic.2.2.2.1 chanStart [(("5"), ("a")), (("5"), ("b"))]
      (by decide) (by decide)).1

theorem isDuplicate_records (c : OneBotDedup) (id : String)
    (h1 : id ≠ "") (h2 : id ≠ "0") :
    id ∈ (isDuplicate c id).2.dedup := by
  unfold isDuplicate
  rw [if_neg (by simp [h1, h2])]
  by_cases hm : id ∈ c.dedup
  · rw [if_pos hm]
    exact hm
  · rw [if_neg hm]
    exact Finset.mem_insert_self _ _

/-- C10: a normalized event whose content is empty is dropped by
`handleMessage` without any bus callback; the only effect of the call is
the dedup update performed by the duplicate check itself, which has
already recorded the event's message id (when it is a real id). -/
theorem handleMessage_empty_drop (pfxs : List String) (st : OneBotDedup)
    (evt : OneBotEvent) (h : evt.content = "") :
    (handleMessage pfxs st evt).1 = none ∧
    (handleMessage pfxs st evt).2 = (isDuplicate st evt.messageID).2 ∧
    (evt.messageID ≠ "" → evt.messageID ≠ "0" →
      evt.messageID ∈ (handleMessage pfxs st evt).2.dedup) := by
  have hmain : handleMessage pfxs st evt = (none, (isDuplicate st evt.messageID).2) := by
    unfold handleMessage
    cases hd : isDuplicate st evt.messageID with
    | mk b st' =>
      cases b
      · simp [h]
      · simp
  refine ⟨by rw [hmain], by rw [hmain], ?_⟩
  intro h1 h2
  rw [hmain]
  exact isDuplicate_records st evt.messageID h1 h2

/-- Witness for C10: a concrete empty-content private event. -/
theorem handleMessage_empty_drop_witness :
    (handleMessage [] initOneBotDedup evtEmptyContent).1 = none ∧
    ("m1") ∈ (handleMessage [] initOneBotDedup evtEmptyContent).2.dedup := by
  have h := handleMessage_empty_drop [] initOneBotDedup evtEmptyContent rfl
  exact ⟨h.1, h.2.2 (by decide) (by decide)⟩

/-- Counterexample for C5's "left zero" clause: when `group_id` is the
numeric string `"9223372036854775808"` (one past `MaxInt64`), its
coercion fails with a range error, but Go's `ParseInt` returns the
clamped maximum alongside the error and the source keeps that value —
the normalized event carries `MaxInt64`, not `0`. -/
theorem normalize_groupid_zero_cex :
    ¬(∀ (raw : OneBotRawEvent) (evt : OneBotEvent),
        normalizeMessageEvent raw = some evt →
        (parseJSONInt64 raw.groupID).2 = false → evt.groupID = 0) := by
  intro h
  have h1 : normalizeMessageEvent rawGroupOverflow = some evtGroupOverflow := by rfl
  have h2 := h rawGroupOverflow evtGroupOverflow h1 (by decide)
  exact absurd h2 (by decide)

/-- C5 (amended): `normalizeMessageEvent` rejects an event exactly when
the `user_id` field cannot be coerced to int64; failures on `group_id`,
`self_id`, `time` or the sender sub-object never reject the event — the
integer fields keep whatever value the parse returned (zero on a syntax
failure or absence, the clamped extreme on a numeric range overflow)
and the sender is decoded best-effort. -/
theorem normalize_error_iff (raw : OneBotRawEvent) :
    (normalizeMessageEvent raw = none ↔ (parseJSONInt64 raw.userID).2 = false) ∧
    ((parseJSONInt64 raw.userID).2 = true →
      (normalizeMessageEvent raw).map
          (fun e => (e.userID, e.groupID, e.selfID, e.time, e.sender)) =
        some ((parseJSONInt64 raw.userID).1, (parseJSONInt64 raw.groupID).1,
          (parseJSONInt64 raw.selfID).1, (parseJSONInt64 raw.time).1,
          if raw.sender.isAbsent then zeroSender else decodeSender raw.sender)) := by
  cases hp : parseJSONInt64 raw.userID with
  | mk u ok =>
    cases ok
    · refine ⟨by simp [normalizeMessageEvent, hp], ?_⟩
      intro hok
      exact absurd hok (by simp)
    · refine ⟨by simp [normalizeMessageEvent, hp], ?_⟩
      intro _
      simp [normalizeMessageEvent, hp]

/-- Witness for C5: a well-formed private message normalizes with all
coerced fields equal to their parses. -/
theorem normalize_error_iff_witness :
    (normalizeMessageEvent rawPrivateOk).map
        (fun e => (e.userID, e.groupID, e.selfID, e.time, e.sender)) =
      some ((parseJSONInt64 rawPrivateOk.userID).1, (parseJSONInt64 rawPrivateOk.groupID).1,
        (parseJSONInt64 rawPrivateOk.selfID).1, (parseJSONInt64 rawPrivateOk.time).1,
        if rawPrivateOk.sender.isAbsent then zeroSender
        else decodeSender rawPrivateOk.sender) :=
  (normalize_error_iff rawPrivateOk).2 (by decide)

/-- C6: when the top-level `raw_message` is non-empty it alone
determines the normalized content — the mention token is removed and
the result trimmed exactly when `selfID > 0` and the token occurs —
while the structured decode of the `message` field supplies the content
only when `raw_message` is empty. -/
theorem normalize_rawmessage_precedence (raw : OneBotRawEvent)
    (hok : (parseJSONInt64 raw.userID).2 = true) :
    (raw.rawMessage ≠ "" →
      (normalizeMessageEvent raw).map OneBotEvent.content =
        some (if (parseJSONInt64 raw.selfID).1 > 0 ∧
              containsSeq (cqAtToken (parseJSONInt64 raw.selfID).1).data
                raw.rawMessage.data then
            goTrimSpace (String.mk
              (removeSeq (cqAtToken (parseJSONInt64 raw.selfID).1).data
                raw.rawMessage.data))
          else raw.rawMessage)) ∧
    (raw.rawMessage = "" →
      (normalizeMessageEvent raw).map OneBotEvent.content =
        some (parseMessageContentEx raw.message (parseJSONInt64 raw.selfID).1).Text) := by
  cases hp : parseJSONInt64 raw.userID with
  | mk u ok =>
    cases ok
    · rw [hp] at hok
      exact absurd hok (by simp)
    · constructor
      · intro hne
        simp only [normalizeMessageEvent, hp, hne, if_false, Option.map_some]
        simp [hne]
        split <;> rfl
      · intro heq
        simp [normalizeMessageEvent, hp, heq]

/-- Witness for C6: a raw group message carrying the mention token in
`raw_message` normalizes to the stripped, trimmed text even though the
structured `message` field holds different text. -/
theorem normalize_rawmessage_precedence_witness :
    (normalizeMessageEvent rawMentionPrecedence).map OneBotEvent.content = some ("hi") := by
  have h := (normalize_rawmessage_precedence rawMentionPrecedence (by decide)).1 (by decide)
  rw [h]
  decide

theorem getD_append_len {α : Type} (l r : List α) (d : α) :
    (l ++ r).getD l.length d = r.getD 0 d := by
  induction l with
  | nil => rfl
  | cons x xs ih => simpa using ih

theorem set_append_len {α : Type} (l r : List α) (a : α) :
    (l ++ r).set l.length a = l ++ r.set 0 a := by
  induction l with
  | nil => rfl
  | cons x xs ih => simp [ih]

theorem isDuplicate_mem_true (c : OneBotDedup) (id : String)
    (h1 : id ≠ "") (h2 : id ≠ "0") (hm : id ∈ c.dedup) :
    (isDuplicate c id).1 = true := by
  unfold isDuplicate
  rw [if_neg (by simp [h1, h2]), if_pos hm]

theorem isDuplicate_not_mem_false (c : OneBotDedup) (id : String) (hm : id ∉ c.dedup) :
    (isDuplicate c id).1 = false := by
  unfold isDuplicate
  by_cases hg : id = "" ∨ id = "0"
  · rw [if_pos hg]
  · rw [if_neg hg, if_neg hm]

theorem initOneBotDedup_eq : initOneBotDedup = mkDedupSt dedupSize [] := by
  simp [initOneBotDedup, mkDedupSt]

theorem isDuplicate_fresh_step (cap : Nat) (l : List String) (i : String)
    (hlen : l.length < cap) (hi1 : i ≠ "") (hi2 : i ≠ "0") (hmem : i ∉ l) :
    isDuplicate (mkDedupSt cap l) i = (false, mkDedupSt cap (l ++ [i])) := by
  have hidx : l.length % cap = l.length := Nat.mod_eq_of_lt hlen
  have hrep : cap - l.length = (cap - l.length - 1) + 1 := by omega
  have hold : (l ++ List.replicate (cap - l.length) ("")).getD l.length ("") = ("") := by
    rw [getD_append_len, hrep, List.replicate_succ]
    rfl
  have hring : (l ++ List.replicate (cap - l.length) ("")).set l.length i =
      (l ++ [i]) ++ List.replicate (cap - (l ++ [i]).length) ("") := by
    rw [set_append_len, hrep, List.replicate_succ]
    have h2 : cap - (l ++ [i]).length = cap - l.length - 1 := by
      simp only [List.length_append, List.length_singleton]
      omega
    rw [h2, List.append_assoc]
    rfl
  have hsetF : insert i l.toFinset = (l ++ [i]).toFinset := by
    apply Finset.ext
    intro a
    simp [or_comm]
  have hrl2 : ((l ++ [i]) ++ List.replicate (cap - (l ++ [i]).length) ("")).length = cap := by
    simp only [List.length_append, List.length_replicate, List.length_singleton]
    omega
  simp only [isDuplicate, mkDedupSt]
  rw [if_neg (by simp [hi1, hi2]), if_neg (by simpa using hmem)]
  rw [hidx, hold]
  have hnn : ¬(("" : String) ≠ ("")) := by simp
  rw [if_neg hnn, hring, hrl2, hsetF]
  simp [List.length_append]

theorem isDuplicate_evict_step (cap : Nat) (l : List String) (i : String)
    (hlen : l.length = cap) (hi1 : i ≠ "") (hi2 : i ≠ "0") (hmem : i ∉ l)
    (hhead : l.getD 0 ("") ≠ ("")) :
    isDuplicate (mkDedupSt cap l) i =
      (false, { dedup := insert i (l.toFinset.erase (l.getD 0 (""))),
                dedupRing := l.set 0 i, dedupIdx := 1 % cap }) := by
  have hrep : cap - l.length = 0 := by omega
  simp only [isDuplicate, mkDedupSt]
  rw [hrep, List.replicate_zero, List.append_nil, hlen, Nat.mod_self]
  rw [if_neg (by simp [hi1, hi2]), if_neg (by simpa using hmem)]
  rw [if_pos hhead]
  simp [List.length_set, hlen]

theorem runDedup_fresh (cap : Nat) (pre : List String) :
    ∀ l : List String, l.length + pre.length ≤ cap →
      pre.Nodup → (∀ y ∈ pre, y ≠ ("") ∧ y ≠ ("0") ∧ y ∉ l) →
      runDedup (mkDedupSt cap l) pre = mkDedupSt cap (l ++ pre) := by
  induction pre with
  | nil =>
    intro l _ _ _
    simp [runDedup]
  | cons i rest ih =>
    intro l hlen hnd hcond
    obtain ⟨hi1, hi2, hil⟩ := hcond i (List.mem_cons_self _ _)
    have hlt : l.length < cap := by
      simp only [List.length_cons] at hlen
      omega
    have hstep := isDuplicate_fresh_step cap l i hlt hi1 hi2 hil
    have hcons : runDedup (mkDedupSt cap l) (i :: rest) =
        runDedup ((isDuplicate (mkDedupSt cap l) i).2) rest := rfl
    rw [hcons, hstep]
    have hni : i ∉ rest := (List.nodup_cons.mp hnd).1
    have htail := ih (l ++ [i])
      (by simp only [List.length_append, List.length_cons, List.length_nil] at hlen ⊢; omega)
      (List.Nodup.of_cons hnd)
      (by
        intro y hy
        obtain ⟨hy1, hy2, hy3⟩ := hcond y (List.mem_cons_of_mem _ hy)
        refine ⟨hy1, hy2, ?_⟩
        simp only [List.mem_append, List.mem_singleton]
        rintro (hl | he)
        · exact hy3 hl
        · exact hni (he ▸ hy))
    rw [htail, List.append_assoc]
    rfl

theorem runDedup_append (c : OneBotDedup) (a b : List String) :
    runDedup c (a ++ b) = runDedup (runDedup c a) b := by
  simp [runDedup, List.foldl_append]

theorem firstInsert_state (x : String) (hx1 : x ≠ ("")) (hx2 : x ≠ ("0")) :
    (isDuplicate initOneBotDedup x).2 = mkDedupSt dedupSize [x] := by
  rw [initOneBotDedup_eq]
  have h := isDuplicate_fresh_step dedupSize [] x (by simp [dedupSize]) hx1 hx2 (by simp)
  rw [h]
  rfl

/-- C2: from the fresh window, once `isDuplicate` has recorded an id
`x ∉ {"", "0"}`, a repeated check reports a duplicate — also after any
proper prefix of 1024 subsequent distinct fresh insertions — and after
all 1024 (the capacity) of them `x` has been evicted, so the check
reports `false` again. -/
theorem dedup_window_spec (x : String) (ids : List String)
    (hx1 : x ≠ ("")) (hx2 : x ≠ ("0"))
    (hnd : ids.Nodup) (hxni : x ∉ ids)
    (hids : ∀ y ∈ ids, y ≠ ("") ∧ y ≠ ("0"))
    (hlen : ids.length = 1024) :
    (isDuplicate ((isDuplicate initOneBotDedup x).2) x).1 = true ∧
    (∀ pre suf, ids = pre ++ suf → suf ≠ [] →
      (isDuplicate (runDedup ((isDuplicate initOneBotDedup x).2) pre) x).1 = true) ∧
    (isDuplicate (runDedup ((isDuplicate initOneBotDedup x).2) ids) x).1 = false := by
  have hs1 := firstInsert_state x hx1 hx2
  refine ⟨?_, ?_, ?_⟩
  · rw [hs1]
    apply isDuplicate_mem_true _ _ hx1 hx2
    simp [mkDedupSt]
  · intro pre suf hsplit hsuf
    subst hsplit
    have hslen : suf.length ≠ 0 := by
      simpa [List.length_eq_zero] using hsuf
    have hpre_len : 1 + pre.length ≤ dedupSize := by
      simp only [List.length_append] at hlen
      simp only [dedupSize]
      omega
    have hrun : runDedup (mkDedupSt dedupSize [x]) pre =
        mkDedupSt dedupSize ([x] ++ pre) := by
      apply runDedup_fresh dedupSize pre [x]
        (by simpa using hpre_len) (List.Nodup.of_append_left hnd)
      intro y hy
      obtain ⟨hy1, hy2⟩ := hids y (List.mem_append_left _ hy)
      refine ⟨hy1, hy2, ?_⟩
      simp only [List.mem_singleton]
      intro he
      exact hxni (he ▸ List.mem_append_left _ hy)
    rw [hs1, hrun]
    apply isDuplicate_mem_true _ _ hx1 hx2
    simp [mkDedupSt]
  · have hne : ids ≠ [] := by
      intro h0
      rw [h0] at hlen
      simp at hlen
    have hfront : ids.dropLast ++ [ids.getLast hne] = ids :=
      List.dropLast_append_getLast hne
    have hfl : ids.dropLast.length = 1023 := by
      have h1 : ids.dropLast.length + 1 = 1024 := by
        conv_rhs => rw [← hlen, ← hfront]
        simp
      omega
    have hsub : ∀ y ∈ ids.dropLast, y ∈ ids := by
      intro y hy
      rw [← hfront]
      exact List.mem_append_left _ hy
    have hlst_mem : ids.getLast hne ∈ ids := List.getLast_mem hne
    have hndfl : (ids.dropLast ++ [ids.getLast hne]).Nodup := by
      rw [hfront]
      exact hnd
    have hlst_front : ids.getLast hne ∉ ids.dropLast := by
      have h2 : (ids.getLast hne :: (ids.dropLast ++ [])).Nodup :=
        List.nodup_middle.mp hndfl
      intro hmem
      exact (List.nodup_cons.mp h2).1 (by simpa using hmem)
    have hxf : x ∉ ids.dropLast := fun h => hxni (hsub x h)
    have hxlst : x ≠ ids.getLast hne := fun h => hxni (h ▸ hlst_mem)
    have hrun : runDedup (mkDedupSt dedupSize [x]) ids.dropLast =
        mkDedupSt dedupSize ([x] ++ ids.dropLast) := by
      apply runDedup_fresh dedupSize ids.dropLast [x]
        (by simp [hfl, dedupSize]) (List.Nodup.of_append_left hndfl)
      intro y hy
      obtain ⟨hy1, hy2⟩ := hids y (hsub y hy)
      refine ⟨hy1, hy2, ?_⟩
      simp only [List.mem_singleton]
      intro he
      exact hxni (he ▸ hsub y hy)
    have hevict := isDuplicate_evict_step dedupSize ([x] ++ ids.dropLast)
      (ids.getLast hne)
      (by simp [hfl, dedupSize])
      (hids _ hlst_mem).1 (hids _ hlst_mem).2
      (by
        simp only [List.mem_append, List.mem_singleton]
        rintro (he | hf)
        · exact hxlst he.symm
        · exact hlst_front hf)
      (by simpa using hx1)
    have hsplit2 : runDedup (mkDedupSt dedupSize [x]) ids =
        (isDuplicate (runDedup (mkDedupSt dedupSize [x]) ids.dropLast)
          (ids.getLast hne)).2 := by
      conv_lhs => rw [← hfront]
      rw [runDedup_append]
      rfl
    rw [hs1, hsplit2, hrun, hevict]
    apply isDuplicate_not_mem_false
    show x ∉ insert (ids.getLast hne)
      ((([x] ++ ids.dropLast).toFinset).erase ((([x] ++ ids.dropLast)).getD 0 ("")))
    have hgd : (([x] ++ ids.dropLast)).getD 0 ("") = x := rfl
    rw [hgd]
    have htf : ([x] ++ ids.dropLast).toFinset = insert x ids.dropLast.toFinset := by
      simp
    rw [htf, Finset.erase_insert (by simpa using hxf)]
    simp only [Finset.mem_insert, List.mem_toFinset]
    rintro (he | hf)
    · exact hxlst he
    · exact hxf hf

theorem witnessStr_inj : Function.Injective (fun n => witnessStr (n + 1)) := by
  intro a b h
  have h1 : witnessStr (a + 1) = witnessStr (b + 1) := h
  have h2 : (witnessStr (a + 1)).data.length = (witnessStr (b + 1)).data.length := by
    rw [h1]
  simp only [witnessStr, List.length_replicate] at h2
  omega

theorem witnessIds_nodup : witnessIds.Nodup :=
  List.Nodup.map witnessStr_inj (List.nodup_range _)

theorem witnessIds_mem (y : String) (hy : y ∈ witnessIds) :
    ∃ n : Nat, y = witnessStr (n + 1) := by
  simp only [witnessIds, List.mem_map] at hy
  obtain ⟨n, _, he⟩ := hy
  exact ⟨n, he.symm⟩

theorem witnessStr_len (n : Nat) : (witnessStr n).length = n := by
  simp [witnessStr, String.length]

theorem witnessStr_ne_x (n : Nat) : witnessStr (n + 1) ≠ ("x") := by
  intro h
  have h2 := congrArg String.length h
  rw [witnessStr_len] at h2
  have hn : n = 0 := by
    have : ("x").length = 1 := rfl
    omega
  subst hn
  exact absurd h (by decide)

theorem witnessStr_ne_empty (n : Nat) : witnessStr (n + 1) ≠ ("") := by
  intro h
  have h2 := congrArg String.length h
  rw [witnessStr_len] at h2
  have : ("").length = 0 := rfl
  omega

theorem witnessStr_ne_zero (n : Nat) : witnessStr (n + 1) ≠ ("0") := by
  intro h
  have h2 := congrArg String.length h
  rw [witnessStr_len] at h2
  have hn : n = 0 := by
    have : ("0").length = 1 := rfl
    omega
  subst hn
  exact absurd h (by decide)

theorem witnessIds_len : witnessIds.length = 1024 := by
  simp [witnessIds, dedupSize]

/-- Witness for C2: the id `"x"` against 1024 pairwise distinct ids
`"a"`, `"aa"`, …: after the first record, the repeat check reports
`true`; after the 1024 distinct insertions it reports `false`. -/
theorem dedup_window_spec_witness :
    (isDuplicate ((isDuplicate initOneBotDedup ("x")).2) ("x")).1 = true ∧
    (isDuplicate (runDedup ((isDuplicate initOneBotDedup ("x")).2) witnessIds) ("x")).1 =
      false := by
  have h := dedup_window_spec ("x") witnessIds (by decide) (by decide)
    witnessIds_nodup
    (by
      intro hmem
      obtain ⟨n, he⟩ := witnessIds_mem _ hmem
      exact witnessStr_ne_x n he.symm)
    (by
      intro y hy
      obtain ⟨n, he⟩ := witnessIds_mem y hy
      rw [he]
      exact ⟨witnessStr_ne_empty n, witnessStr_ne_zero n⟩)
    witnessIds_len
  exact ⟨h.1, h.2.2⟩

theorem list_set_decomp {α : Type} (a : α) (d : α) :
    ∀ (l : List α) (n : Nat), n < l.length →
      l = l.take n ++ l.getD n d :: l.drop (n + 1) ∧
      l.set n a = l.take n ++ a :: l.drop (n + 1) := by
  intro l
  induction l with
  | nil =>
    intro n h
    simp at h
  | cons x xs ih =>
    intro n h
    cases n with
    | zero => simp
    | succ k =>
      have hk : k < xs.length := by simpa using h
      obtain ⟨h1, h2⟩ := ih k hk
      constructor
      · simp only [List.take_succ_cons, List.getD_cons_succ, List.drop_succ_cons,
          List.cons_append, List.cons.injEq]
        exact ⟨by trivial, h1⟩
      · simp only [List.set_cons_succ, List.take_succ_cons, List.drop_succ_cons,
          List.cons_append, List.cons.injEq]
        exact ⟨by trivial, h2⟩

theorem isDuplicate_insert_eq (c : OneBotDedup) (m : String)
    (hg : ¬(m = ("") ∨ m = ("0"))) (hm : m ∉ c.dedup) :
    isDuplicate c m =
      (false,
        { dedup := insert m (if c.dedupRing.getD c.dedupIdx ("") ≠ ("") then
              c.dedup.erase (c.dedupRing.getD c.dedupIdx ("")) else c.dedup),
          dedupRing := c.dedupRing.set c.dedupIdx m,
          dedupIdx := (c.dedupIdx + 1) % (c.dedupRing.set c.dedupIdx m).length }) := by
  unfold isDuplicate
  rw [if_neg hg, if_neg hm]

theorem dedupInv_step (s : OneBotDedup) (m : String) (hInv : DedupInv s) :
    DedupInv (isDuplicate s m).2 := by
  obtain ⟨hL, hIdx, hND, hMem⟩ := hInv
  by_cases hg : m = ("") ∨ m = ("0")
  · unfold isDuplicate
    rw [if_pos hg]
    exact ⟨hL, hIdx, hND, hMem⟩
  by_cases hm : m ∈ s.dedup
  · unfold isDuplicate
    rw [if_neg hg, if_pos hm]
    exact ⟨hL, hIdx, hND, hMem⟩
  have hm1 : m ≠ ("") := fun h => hg (Or.inl h)
  have hqm : (m != ("")) = true := by simpa using hm1
  have hmr : m ∉ s.dedupRing := fun hr => hm ((hMem m).mpr ⟨hm1, hr⟩)
  have hidxlen : s.dedupIdx < s.dedupRing.length := by
    rw [hL]
    exact hIdx
  obtain ⟨hdec, hset⟩ := list_set_decomp m ("") s.dedupRing s.dedupIdx hidxlen
  have hmsplit : ¬(m ∈ s.dedupRing.take s.dedupIdx ∨
      m = s.dedupRing.getD s.dedupIdx ("") ∨ m ∈ s.dedupRing.drop (s.dedupIdx + 1)) := by
    intro hc
    apply hmr
    rw [hdec]
    simpa using hc
  have hmA : m ∉ s.dedupRing.take s.dedupIdx := fun h => hmsplit (Or.inl h)
  have hmB : m ∉ s.dedupRing.drop (s.dedupIdx + 1) := fun h => hmsplit (Or.inr (Or.inr h))
  have hNDd : ((s.dedupRing.take s.dedupIdx ++
      s.dedupRing.getD s.dedupIdx ("") :: s.dedupRing.drop (s.dedupIdx + 1)).filter
        (fun a => a != (""))).Nodup := by
    rw [← hdec]
    exact hND
  have hf2 : ((s.dedupRing.take s.dedupIdx ++
      m :: s.dedupRing.drop (s.dedupIdx + 1)).filter (fun a => a != (""))) =
      (s.dedupRing.take s.dedupIdx).filter (fun a => a != ("")) ++
        m :: (s.dedupRing.drop (s.dedupIdx + 1)).filter (fun a => a != ("")) := by
    rw [List.filter_append, List.filter_cons, if_pos hqm]
  have hmAf : m ∉ (s.dedupRing.take s.dedupIdx).filter (fun a => a != ("")) :=
    fun h => hmA (List.mem_filter.mp h).1
  have hmBf : m ∉ (s.dedupRing.drop (s.dedupIdx + 1)).filter (fun a => a != ("")) :=
    fun h => hmB (List.mem_filter.mp h).1
  rw [isDuplicate_insert_eq s m hg hm]
  by_cases hold : s.dedupRing.getD s.dedupIdx ("") ≠ ("")
  · -- occupied slot: the old id is deleted from the set
    have hqold : (s.dedupRing.getD s.dedupIdx ("") != ("")) = true := by simpa using hold
    have hf1 : ((s.dedupRing.take s.dedupIdx ++
        s.dedupRing.getD s.dedupIdx ("") :: s.dedupRing.drop (s.dedupIdx + 1)).filter
          (fun a => a != (""))) =
        (s.dedupRing.take s.dedupIdx).filter (fun a => a != ("")) ++
          s.dedupRing.getD s.dedupIdx ("") ::
            (s.dedupRing.drop (s.dedupIdx + 1)).filter (fun a => a != ("")) := by
      rw [List.filter_append, List.filter_cons, if_pos hqold]
    have h5 := List.nodup_middle.mp (hf1 ▸ hNDd)
    have holdAB := (List.nodup_cons.mp h5).1
    have holdA : s.dedupRing.getD s.dedupIdx ("") ∉ s.dedupRing.take s.dedupIdx := by
      intro h
      exact holdAB (List.mem_append_left _ (List.mem_filter.mpr ⟨h, hqold⟩))
    have holdB : s.dedupRing.getD s.dedupIdx ("") ∉ s.dedupRing.drop (s.dedupIdx + 1) := by
      intro h
      exact holdAB (List.mem_append_right _ (List.mem_filter.mpr ⟨h, hqold⟩))
    rw [if_pos hold]
    refine ⟨by simp [List.length_set, hL], ?_, ?_, ?_⟩
    · show (s.dedupIdx + 1) % (s.dedupRing.set s.dedupIdx m).length < dedupSize
      rw [List.length_set, hL]
      exact Nat.mod_lt _ (by simp [dedupSize])
    · show ((s.dedupRing.set s.dedupIdx m).filter (fun a => a != (""))).Nodup
      rw [hset, hf2]
      refine List.nodup_middle.mpr (List.nodup_cons.mpr ⟨?_, (List.nodup_cons.mp h5).2⟩)
      intro hc
      rcases List.mem_append.mp hc with hc1 | hc2
      · exact hmAf hc1
      · exact hmBf hc2
    · intro a
      show a ∈ insert m (s.dedup.erase (s.dedupRing.getD s.dedupIdx (""))) ↔
        (a ≠ ("") ∧ a ∈ s.dedupRing.set s.dedupIdx m)
      rw [hset]
      simp only [Finset.mem_insert, Finset.mem_erase]
      constructor
      · rintro (he | ⟨hne, hd⟩)
        · refine ⟨he ▸ hm1, ?_⟩
          rw [he]
          exact List.mem_append_right _ (List.mem_cons_self _ _)
        · obtain ⟨ha1, ha2⟩ := (hMem a).mp hd
          refine ⟨ha1, ?_⟩
          rw [hdec] at ha2
          rcases List.mem_append.mp ha2 with hA | hOB
          · exact List.mem_append_left _ hA
          · rcases List.mem_cons.mp hOB with hO | hB
            · exact absurd hO hne
            · exact List.mem_append_right _ (List.mem_cons_of_mem _ hB)
      · rintro ⟨ha1, hmem2⟩
        rcases List.mem_append.mp hmem2 with hA | hOB
        · refine Or.inr ⟨?_, (hMem a).mpr ⟨ha1, by
            rw [hdec]
            exact List.mem_append_left _ hA⟩⟩
          intro he2
          exact holdA (he2 ▸ hA)
        · rcases List.mem_cons.mp hOB with he | hB
          · exact Or.inl he
          · refine Or.inr ⟨?_, (hMem a).mpr ⟨ha1, by
              rw [hdec]
              exact List.mem_append_right _ (List.mem_cons_of_mem _ hB)⟩⟩
            intro he2
            exact holdB (he2 ▸ hB)
  · -- empty slot: nothing is deleted
    have hempty : s.dedupRing.getD s.dedupIdx ("") = ("") := by
      by_contra hc
      exact hold hc
    have hf1 : ((s.dedupRing.take s.dedupIdx ++
        s.dedupRing.getD s.dedupIdx ("") :: s.dedupRing.drop (s.dedupIdx + 1)).filter
          (fun a => a != (""))) =
        (s.dedupRing.take s.dedupIdx).filter (fun a => a != ("")) ++
          (s.dedupRing.drop (s.dedupIdx + 1)).filter (fun a => a != ("")) := by
      have hqe : ¬((s.dedupRing.getD s.dedupIdx ("") != ("")) = true) := by
        rw [hempty]
        simp
      rw [List.filter_append, List.filter_cons, if_neg hqe]
    have hNDAB : ((s.dedupRing.take s.dedupIdx).filter (fun a => a != ("")) ++
        (s.dedupRing.drop (s.dedupIdx + 1)).filter (fun a => a != (""))).Nodup :=
      hf1 ▸ hNDd
    rw [if_neg hold]
    refine ⟨by simp [List.length_set, hL], ?_, ?_, ?_⟩
    · show (s.dedupIdx + 1) % (s.dedupRing.set s.dedupIdx m).length < dedupSize
      rw [List.length_set, hL]
      exact Nat.mod_lt _ (by simp [dedupSize])
    · show ((s.dedupRing.set s.dedupIdx m).filter (fun a => a != (""))).Nodup
      rw [hset, hf2]
      refine List.nodup_middle.mpr (List.nodup_cons.mpr ⟨?_, hNDAB⟩)
      intro hc
      rcases List.mem_append.mp hc with hc1 | hc2
      · exact hmAf hc1
      · exact hmBf hc2
    · intro a
      show a ∈ insert m s.dedup ↔ (a ≠ ("") ∧ a ∈ s.dedupRing.set s.dedupIdx m)
      rw [hset]
      simp only [Finset.mem_insert]
      constructor
      · rintro (he | hd)
        · refine ⟨he ▸ hm1, ?_⟩
          rw [he]
          exact List.mem_append_right _ (List.mem_cons_self _ _)
        · obtain ⟨ha1, ha2⟩ := (hMem a).mp hd
          refine ⟨ha1, ?_⟩
          rw [hdec] at ha2
          rcases List.mem_append.mp ha2 with hA | hOB
          · exact List.mem_append_left _ hA
          · rcases List.mem_cons.mp hOB with hO | hB
            · exact absurd (hO.trans hempty) ha1
            · exact List.mem_append_right _ (List.mem_cons_of_mem _ hB)
      · rintro ⟨ha1, hmem2⟩
        rcases List.mem_append.mp hmem2 with hA | hOB
        · exact Or.inr ((hMem a).mpr ⟨ha1, by
            rw [hdec]
            exact List.mem_append_left _ hA⟩)
        · rcases List.mem_cons.mp hOB with he | hB
          · exact Or.inl he
          · exact Or.inr ((hMem a).mpr ⟨ha1, by
              rw [hdec]
              exact List.mem_append_right _ (List.mem_cons_of_mem _ hB)⟩)

theorem dedupInv_init : DedupInv initOneBotDedup := by
  refine ⟨?_, ?_, ?_, ?_⟩
  · show (List.replicate dedupSize ("")).length = dedupSize
    rw [List.length_replicate]
  · show (0 : Nat) < dedupSize
    decide
  · have hf : ((List.replicate dedupSize ("")).filter (fun a => a != (""))) = [] := by
      rw [List.filter_eq_nil_iff]
      intro a ha
      rw [List.eq_of_mem_replicate ha]
      simp
    show ((List.replicate dedupSize ("")).filter (fun a => a != (""))).Nodup
    rw [hf]
    exact List.nodup_nil
  · intro a
    show a ∈ (∅ : Finset String) ↔ (a ≠ ("") ∧ a ∈ List.replicate dedupSize (""))
    simp only [Finset.not_mem_empty, false_iff, not_and]
    intro ha hrep
    exact ha (List.eq_of_mem_replicate hrep)

theorem dedupInv_run (ids : List String) : DedupInv (runDedup initOneBotDedup ids) := by
  suffices h : ∀ c, DedupInv c → DedupInv (runDedup c ids) from h _ dedupInv_init
  induction ids with
  | nil =>
    intro c hc
    exact hc
  | cons i rest ih =>
    intro c hc
    exact ih ((isDuplicate c i).2) (dedupInv_step c i hc)

/-- C3: in every state reachable from the fresh window, the presence set
holds exactly the ids of non-empty ring slots, its size equals the
number of non-empty slots and never exceeds the capacity 1024; and an
insertion writes the new id into the cursor slot and the set in one
operation, removing the evicted slot's id from the set when the slot
was occupied. -/
theorem dedup_invariant (ids : List String) (id : String) (s : OneBotDedup)
    (hs : s = runDedup initOneBotDedup ids) (h1 : id ≠ ("")) (h2 : id ≠ ("0")) :
    (∀ a, a ∈ s.dedup ↔ (a ≠ ("") ∧ a ∈ s.dedupRing)) ∧
    s.dedup.card = (s.dedupRing.filter (fun a => a != (""))).length ∧
    s.dedup.card ≤ 1024 ∧
    (id ∉ s.dedup →
      id ∈ (isDuplicate s id).2.dedup ∧
      (isDuplicate s id).2.dedupRing = s.dedupRing.set s.dedupIdx id ∧
      (s.dedupRing.getD s.dedupIdx ("") ≠ ("") →
        (isDuplicate s id).2.dedup =
          insert id (s.dedup.erase (s.dedupRing.getD s.dedupIdx (""))) ∧
        s.dedupRing.getD s.dedupIdx ("") ∉ (isDuplicate s id).2.dedup)) := by
  obtain ⟨hL, hIdx, hND, hMem⟩ : DedupInv s := hs ▸ dedupInv_run ids
  have hcard : s.dedup.card = (s.dedupRing.filter (fun a => a != (""))).length := by
    have hEq : s.dedup = (s.dedupRing.filter (fun a => a != (""))).toFinset := by
      apply Finset.ext
      intro a
      rw [List.mem_toFinset, List.mem_filter, hMem a]
      constructor
      · rintro ⟨hx, hy⟩
        exact ⟨hy, by simpa using hx⟩
      · rintro ⟨hy, hx⟩
        exact ⟨by simpa using hx, hy⟩
    rw [hEq, List.toFinset_card_of_nodup hND]
  have hg : ¬(id = ("") ∨ id = ("0")) := by
    rintro (hc | hc)
    · exact h1 hc
    · exact h2 hc
  refine ⟨hMem, hcard, ?_, ?_⟩
  · rw [hcard]
    calc (s.dedupRing.filter (fun a => a != (""))).length
        ≤ s.dedupRing.length := List.length_filter_le _ _
      _ = dedupSize := hL
      _ ≤ 1024 := by decide
  · intro hnm
    rw [isDuplicate_insert_eq s id hg hnm]
    refine ⟨?_, rfl, ?_⟩
    · show id ∈ insert id _
      exact Finset.mem_insert_self _ _
    · intro hold
      rw [if_pos hold]
      refine ⟨rfl, ?_⟩
      have hidxlen : s.dedupIdx < s.dedupRing.length := by
        rw [hL]
        exact hIdx
      have holdmem : s.dedupRing.getD s.dedupIdx ("") ∈ s.dedupRing := by
        rw [List.getD_eq_getElem s.dedupRing _ hidxlen]
        exact List.getElem_mem hidxlen
      have holdin : s.dedupRing.getD s.dedupIdx ("") ∈ s.dedup :=
        (hMem _).mpr ⟨hold, holdmem⟩
      have holdne : s.dedupRing.getD s.dedupIdx ("") ≠ id := by
        intro he
        exact hnm (he ▸ holdin)
      show s.dedupRing.getD s.dedupIdx ("") ∉
        insert id (s.dedup.erase (s.dedupRing.getD s.dedupIdx ("")))
      rw [Finset.mem_insert]
      rintro (he | hmem2)
      · exact holdne he
      · exact Finset.not_mem_erase _ _ hmem2

/-- Witness for C3: the fresh window, and the id `"m1"` inserted into
it. -/
theorem dedup_invariant_witness :
    initOneBotDedup.dedup.card ≤ 1024 ∧
    ("m1") ∈ (isDuplicate initOneBotDedup ("m1")).2.dedup ∧
    (isDuplicate initOneBotDedup ("m1")).2.dedupRing =
      initOneBotDedup.dedupRing.set initOneBotDedup.dedupIdx ("m1") := by
  have h := dedup_invariant [] ("m1") initOneBotDedup rfl (by decide) (by decide)
  have h4 := h.2.2.2 (by simp [initOneBotDedup])
  exact ⟨h.2.2.1, h4.1, h4.2.1⟩
